import Mathlib

/-!
Shallow embedding of `src/server.js` (hindi-news-listener backend).

The server is four Express handlers around three external providers.  We embed
the pure computations of each handler (input clamping, SSML prosody tiers and
body assembly, the summarize line filter, the word-map JSON-fallback parsing
and positional normalization, and the startup environment check), with the
relevant JavaScript value semantics (NaN propagation through `Math.min` /
`Math.max`, truthiness of request fields) made explicit.  External calls
(NewsAPI, OpenAI chat completion, Azure speech synthesis) are oracles passed
to the handler functions; `JSON.parse` is likewise an oracle parameter, since
it is a platform primitive, not repository code.
-/

/-- A JavaScript number: either NaN or a finite value (modelled as a rational;
the server never produces infinities on these paths). -/
inductive JsNum where
  | nan : JsNum
  | num (q : ℚ) : JsNum
deriving DecidableEq

/-- A numeric-position request value (`rate`, `pauseMs`, `count`), abstracted
by how the server consumes it: every such value first passes through
`value || default` and then `Number(·)`.
* `falsy`: any JS-falsy value — `undefined`, `null`, `0`, `""`, `false`, `NaN`
  — all of which `value || default` replaces by the default.  (For `rate` and
  `pauseMs` the destructuring defaults `rate = 100`, `pauseMs = 0` coincide
  with the `|| 100` / `|| 0` fallbacks, so collapsing `undefined` into this
  case is exact.)
* `truthyNum q`: a truthy value whose `Number(·)` is the finite number `q`
  (e.g. the number `90`, or the string `"0"` — truthy, `Number` 0).
* `truthyNaN`: a truthy value whose `Number(·)` is NaN (e.g. `"abc"`). -/
inductive NumField where
  | falsy : NumField
  | truthyNum (q : ℚ) : NumField
  | truthyNaN : NumField
deriving DecidableEq

/-- The `NumField` denotation of a JSON-body numeric literal `q`:
the number `0` is falsy, every other finite number is truthy. -/
def numField (q : ℚ) : NumField :=
  if q = 0 then NumField.falsy else NumField.truthyNum q

/-- `Number(v || dflt)` for a numeric-position field. -/
def numFieldOr (v : NumField) (dflt : ℚ) : JsNum :=
  match v with
  | NumField.falsy => JsNum.num dflt
  | NumField.truthyNum q => JsNum.num q
  | NumField.truthyNaN => JsNum.nan

/-- `Math.min(bound, n)`: NaN absorbs. -/
def jsMinConst (bound : ℚ) : JsNum → JsNum
  | JsNum.nan => JsNum.nan
  | JsNum.num q => JsNum.num (min bound q)

/-- `Math.max(bound, n)`: NaN absorbs. -/
def jsMaxConst (bound : ℚ) : JsNum → JsNum
  | JsNum.nan => JsNum.nan
  | JsNum.num q => JsNum.num (max bound q)

/-- JS `n <= b` for a possibly-NaN left operand: every comparison with NaN
is false. -/
def jsLe (n : JsNum) (b : ℚ) : Bool :=
  match n with
  | JsNum.nan => false
  | JsNum.num q => decide (q ≤ b)

/-- JS `n > b` for a possibly-NaN left operand. -/
def jsGt (n : JsNum) (b : ℚ) : Bool :=
  match n with
  | JsNum.nan => false
  | JsNum.num q => decide (b < q)

/-- A string-position request field (`text`, `sentence`), abstracted by the
only two aspects the server consumes: JS truthiness and (when truthy) its
string value.  `absent` is a missing field (`undefined`); `nullV`, `falseV`,
`zeroV` are present falsy non-string values; `str s` is a string value
(falsy exactly when empty). -/
inductive StrField where
  | absent : StrField
  | nullV : StrField
  | falseV : StrField
  | zeroV : StrField
  | str (s : String) : StrField
deriving DecidableEq

/-- JS truthiness of a string-position field. -/
def StrField.isTruthy : StrField → Bool
  | StrField.str s => !s.isEmpty
  | _ => false

/-- The string value of a (truthy) string field. -/
def StrField.value : StrField → String
  | StrField.str s => s
  | _ => ""

/-- JS `String.prototype.trim()` (embedded over the character list: drop
whitespace from both ends). -/
def jsTrim (s : String) : String :=
  String.mk (((s.data.dropWhile Char.isWhitespace).reverse.dropWhile
    Char.isWhitespace).reverse)

/-- Split a character list at every character satisfying `p` (each separator
character cuts; empty pieces are kept, as with JS `split` on a single
character and Lean `String.split`). -/
def splitPred (p : Char → Bool) : List Char → List (List Char)
  | [] => [[]]
  | c :: cs =>
    if p c then [] :: splitPred p cs
    else
      match splitPred p cs with
      | [] => [[c]]
      | piece :: rest => (c :: piece) :: rest

/-- `String(text).trim().split(/\s+/).filter(Boolean)`: the whitespace word
split shared by the speak and word-map handlers.  Splitting a trimmed string
on `/\s+/` and dropping falsy pieces coincides with cutting at every
whitespace character and dropping the empty pieces. -/
def splitWords (s : String) : List String :=
  ((splitPred Char.isWhitespace (jsTrim s).data).map String.mk).filter
    (fun w => !w.isEmpty)

/-- JS `split("\n")` (empty pieces kept). -/
def splitLines (s : String) : List String :=
  (splitPred (fun c => c = Char.ofNat 10) s.data).map String.mk

/-- JS `replaceAll` for a single-character pattern, over character lists. -/
def replaceAllChar (c : Char) (rep : List Char) : List Char → List Char
  | [] => []
  | x :: xs =>
    if x = c then rep ++ replaceAllChar c rep xs
    else x :: replaceAllChar c rep xs

/-- `escapeXml` from the server: the five XML-reserved characters, replaced
in the source's order (`&` first, so the ampersands introduced by the later
replacements are not re-escaped). -/
def escapeXml (s : String) : String :=
  String.mk (replaceAllChar (Char.ofNat 39) "&apos;".data
    (replaceAllChar (Char.ofNat 34) "&quot;".data
      (replaceAllChar (Char.ofNat 62) "&gt;".data
        (replaceAllChar (Char.ofNat 60) "&lt;".data
          (replaceAllChar (Char.ofNat 38) "&amp;".data s.data)))))

/-- Decimal rendering of a clamped pause value, as JS template interpolation
would produce for the integers the handler is given (non-integer rationals are
rendered as a fraction; JS would print a decimal expansion, but no claim
inspects those digits). -/
def ratToString (q : ℚ) : String :=
  if q.den = 1 then toString q.num else toString q.num ++ "/" ++ toString q.den

/-- The `<break time="...ms"/>` joiner used when the clamped pause is
positive. -/
def breakTag (p : ℚ) : String :=
  "<break time=\x22" ++ ratToString p ++ "ms\x22/>"

/-- The intermediate `r` of `ratePercentToSsmlRate`:
`Math.max(60, Math.min(140, Number(ratePercent || 100)))`. -/
def effRate (ratePercent : NumField) : JsNum :=
  jsMaxConst 60 (jsMinConst 140 (numFieldOr ratePercent 100))

/-- `ratePercentToSsmlRate` from the server. -/
def ratePercentToSsmlRate (ratePercent : NumField) : String :=
  let r := effRate ratePercent
  if jsLe r 80 then "x-slow"
  else if jsLe r 95 then "slow"
  else if jsLe r 110 then "medium"
  else if jsLe r 125 then "fast"
  else "x-fast"

/-- `safePause` of `buildHindiSsml`:
`Math.max(0, Math.min(2000, Number(pauseMs || 0)))`. -/
def speakSafePause (pauseMs : NumField) : JsNum :=
  jsMaxConst 0 (jsMinConst 2000 (numFieldOr pauseMs 0))

/-- The `joiner` of `buildHindiSsml`: a break tag of the clamped pause when
`safePause > 0`, otherwise a single space (NaN compares false with `> 0`). -/
def ssmlJoiner (pauseMs : NumField) : String :=
  match speakSafePause pauseMs with
  | JsNum.num p => if 0 < p then breakTag p else " "
  | JsNum.nan => " "

/-- The `body` of `buildHindiSsml`: XML-escaped words joined by the joiner. -/
def ssmlBody (text : String) (pauseMs : NumField) : String :=
  String.intercalate (ssmlJoiner pauseMs) ((splitWords text).map escapeXml)

/-- `buildHindiSsml` from the server: the fixed SSML template around the
computed prosody tier and body, trimmed. -/
def buildHindiSsml (text : String) (ratePercent pauseMs : NumField) : String :=
  jsTrim ("\n<speak version=\x221.0\x22 xml:lang=\x22hi-IN\x22 xmlns=\x22http://www.w3.org/2001/10/synthesis\x22>\n  <voice name=\x22hi-IN-SwaraNeural\x22>\n    <prosody rate=\x22"
    ++ ratePercentToSsmlRate ratePercent ++ "\x22>\n      "
    ++ ssmlBody text pauseMs ++ "\n    </prosody>\n  </voice>\n</speak>")

/-- The effective news page size:
`Math.max(1, Math.min(20, Number(req.query.count || 3)))`.  Query parameters
arrive as strings, so `falsy` is a missing or empty `count`, `truthyNum q` a
non-empty numeric string, `truthyNaN` a non-empty non-numeric string. -/
def newsEffectiveCount (countParam : NumField) : JsNum :=
  jsMaxConst 1 (jsMinConst 20 (numFieldOr countParam 3))

/-- One character of the Hebrew block `[֐-׿]`. -/
def isHebrewChar (c : Char) : Bool :=
  decide (0x590 ≤ c.toNat ∧ c.toNat ≤ 0x5FF)

/-- One character of the Devanagari block `[ऀ-ॿ]`. -/
def isDevaChar (c : Char) : Bool :=
  decide (0x900 ≤ c.toNat ∧ c.toNat ≤ 0x97F)

/-- `/[֐-׿]/.test(s)`. -/
def hasHebrew (s : String) : Bool := s.data.any isHebrewChar

/-- `/[ऀ-ॿ]/.test(s)`. -/
def hasDeva (s : String) : Bool := s.data.any isDevaChar

/-- The summarize handler keeps a line iff it has a Hebrew or a Devanagari
character. -/
def keepLine (line : String) : Bool := hasHebrew line || hasDeva line

/-- The summarize post-filter: split on newlines, blank out the lines with no
Hebrew and no Devanagari character (keeping the others trimmed), drop the
falsy (empty) pieces, and rejoin with newlines. -/
def summarizeFilter (s : String) : String :=
  String.intercalate "\n"
    (((splitLines s).map
        (fun line => if keepLine line then jsTrim line else "")).filter
      (fun l => !l.isEmpty))

/-- One entry of the provider's parsed `words` array, abstracted by the only
aspect the normalizer consumes: `he = some h` when the entry is truthy and
its `he` field is truthy with `String(item.he) = h`; `he = none` when the
entry is missing/falsy or its `he` field is missing/falsy (both yield the
empty gloss). -/
structure WmItem where
  he : Option String
deriving DecidableEq

/-- A parsed provider document: `words = some l` when `parsed.words` is an
array (of entries `l`); `none` when the field is missing or not an array
(`Array.isArray(parsed?.words)` false, so the handler uses `[]`). -/
structure ParsedDoc where
  words : Option (List WmItem)
deriving DecidableEq

/-- One `{hi, he}` pair of the word-map response. -/
structure WordPair where
  hi : String
  he : String
deriving DecidableEq

/-- The positional normalization of the word-map handler:
`words.map((w, idx) => ...)` takes the `idx`-th provider entry's gloss when
present, discards it unless it contains a Hebrew character, and pairs it with
the unchanged input word.  (Recursing with `out.tail` realises `out[idx]`:
the head of the `idx`-th tail.) -/
def normalizeWordmap : List String → List WmItem → List WordPair
  | [], _ => []
  | w :: ws, out =>
    let he0 : String :=
      match out.head? with
      | some item => match item.he with | some h => h | none => ""
      | none => ""
    let he : String := if hasHebrew he0 then he0 else ""
    { hi := w, he := he } :: normalizeWordmap ws out.tail

/-- The opening-brace character. -/
def lbraceChar : Char := Char.ofNat 123

/-- The closing-brace character. -/
def rbraceChar : Char := Char.ofNat 125

/-- JS `indexOf` of a character (as `Option`: `none` for `-1`). -/
def strIndexOf (s : String) (c : Char) : Option Nat :=
  s.data.findIdx? (fun x => x = c)

/-- JS `lastIndexOf` of a character (as `Option`: `none` for `-1`). -/
def strLastIndexOf (s : String) (c : Char) : Option Nat :=
  match (s.data.reverse.findIdx? (fun x => x = c)) with
  | some k => some (s.data.length - 1 - k)
  | none => none

/-- JS `s.slice(a, b)` for `0 ≤ a ≤ b` (character positions). -/
def strSlice (s : String) (a b : Nat) : String :=
  String.mk ((s.data.drop a).take (b - a))

/-- The word-map handler's two-stage parse, with `JSON.parse` as the oracle
`jp` (`none` = the parse throws): parse the raw string directly; on failure,
if a first `\x7b` at `start` and a last `\x7d` at `stop` exist with
`stop > start`, parse `raw.slice(start, stop + 1)`; otherwise fail. -/
def parseWithFallback (jp : String → Option ParsedDoc) (raw : String) :
    Option ParsedDoc :=
  match jp raw with
  | some v => some v
  | none =>
    match strIndexOf raw lbraceChar, strLastIndexOf raw rbraceChar with
    | some start, some stop =>
      if start < stop then jp (strSlice raw start (stop + 1)) else none
    | some _, none => none
    | none, _ => none

/-- Response of `POST /api/summarize`. -/
inductive SumResponse where
  | badRequest (error : String) : SumResponse
  | okResult (result : String) : SumResponse
  | serverError (error : String) : SumResponse
deriving DecidableEq

/-- The summarize handler.  `completionResult` is the outcome of the single
OpenAI call (`Except.error` = the awaited call threw); the second component
records whether that outbound call was made.  The prompt text does not
influence the claims and is not modelled. -/
def summarizeHandler (text : StrField)
    (completionResult : Except String String) : SumResponse × Bool :=
  if text.isTruthy = false then (SumResponse.badRequest "Missing text", false)
  else
    match completionResult with
    | Except.error _ => (SumResponse.serverError "OpenAI error", true)
    | Except.ok content =>
      (SumResponse.okResult (summarizeFilter content), true)

/-- Response of `POST /api/speak`. -/
inductive SpeakResponse where
  | badRequest (error : String) : SpeakResponse
  | okAudio (contentType : String) (audio : List Nat) : SpeakResponse
  | serverError (error : String) : SpeakResponse
deriving DecidableEq

/-- The speak handler.  `synth` is the speech-synthesis oracle taking the
built SSML to audio bytes (`Except.error` = setup failure, synthesis error
callback, or non-completed reason); the second component records whether the
synthesis call was reached. -/
def speakHandler (text : StrField) (rate pauseMs : NumField)
    (synth : String → Except String (List Nat)) : SpeakResponse × Bool :=
  if text.isTruthy = false then (SpeakResponse.badRequest "Missing text", false)
  else
    let ssml := buildHindiSsml text.value rate pauseMs
    match synth ssml with
    | Except.ok audio => (SpeakResponse.okAudio "audio/mpeg" audio, true)
    | Except.error _ => (SpeakResponse.serverError "Speech error", true)

/-- Response of `POST /api/wordmap`. -/
inductive WmResponse where
  | badRequest (error : String) : WmResponse
  | okWords (words : List WordPair) : WmResponse
  | serverError (error : String) : WmResponse
deriving DecidableEq

/-- The word-map handler.  `jp` is the `JSON.parse` oracle,
`completionResult` the outcome of the single OpenAI call; the second
component records whether that outbound call was made.  An untruthy sentence
is a 400 before the call; a sentence splitting to no words returns
`{words: []}` before the call; a parse failure after the call is the generic
500. -/
def wordmapHandler (sentence : StrField) (jp : String → Option ParsedDoc)
    (completionResult : Except String String) : WmResponse × Bool :=
  if sentence.isTruthy = false then
    (WmResponse.badRequest "Missing sentence", false)
  else
    let words := splitWords sentence.value
    if words.isEmpty then (WmResponse.okWords [], false)
    else
      match completionResult with
      | Except.error _ => (WmResponse.serverError "Wordmap error", true)
      | Except.ok content =>
        let raw := jsTrim content
        match parseWithFallback jp raw with
        | none => (WmResponse.serverError "Wordmap error", true)
        | some parsed =>
          (WmResponse.okWords
            (normalizeWordmap words (parsed.words.getD [])), true)

/-- The four environment variables required at startup. -/
def requiredVars : List String :=
  ["NEWSAPI_KEY", "OPENAI_API_KEY", "AZURE_SPEECH_KEY", "AZURE_SPEECH_REGION"]

/-- `!process.env[k]`: an environment variable is missing when unset or set
to the empty string (both falsy). -/
def envTruthy (env : String → Option String) (k : String) : Bool :=
  match env k with
  | some s => !s.isEmpty
  | none => false

/-- `required.filter((k) => !process.env[k])`. -/
def missingVars (env : String → Option String) : List String :=
  requiredVars.filter (fun k => !envTruthy env k)

/-- Startup outcome: `exited l` is `process.exit(1)` after printing the
missing names `l`; `started` proceeds to serve. -/
inductive Startup where
  | exited (missingNames : List String) : Startup
  | started : Startup
deriving DecidableEq

/-- The startup environment check of the server. -/
def startupCheck (env : String → Option String) : Startup :=
  if (missingVars env).isEmpty then Startup.started
  else Startup.exited (missingVars env)

/-- The clamp written in the spec's testable properties,
`clamp(x, lo, hi)`. -/
def specClamp (x lo hi : ℚ) : ℚ := max lo (min hi x)

/-- The tier table written in the spec (`≤80→x-slow, ≤95→slow, ≤110→medium,
≤125→fast, else x-fast`), as a function of a plain number — the claimed
description of `ratePercentToSsmlRate`, to be compared with the code's
function. -/
def specRateTier (t : ℚ) : String :=
  if t ≤ 80 then "x-slow"
  else if t ≤ 95 then "slow"
  else if t ≤ 110 then "medium"
  else if t ≤ 125 then "fast"
  else "x-fast"

/-- `JSON.parse` oracle used to instantiate the word-map theorems: succeeds
exactly on one fixed document string. -/
def jpDirect : String → Option ParsedDoc :=
  fun s =>
    if s = "resp" then some { words := some [{ he := some "אחד" }] } else none

/-- `JSON.parse` oracle that fails on the raw completion but succeeds on its
brace-extracted slice. -/
def jpFallback : String → Option ParsedDoc :=
  fun s => if s = "\x7b\x7d" then some { words := some [] } else none

/-- Environment with every required variable set. -/
def envComplete : String → Option String := fun _ => some "key"

/-- Environment with the news key unset. -/
def envNoNews : String → Option String :=
  fun k => if k = "NEWSAPI_KEY" then none else some "key"

lemma normalizeWordmap_map_hi (ws : List String) (out : List WmItem) :
    (normalizeWordmap ws out).map WordPair.hi = ws := by
  induction ws generalizing out with
  | nil => rfl
  | cons w ws ih => simp [normalizeWordmap, ih]

lemma normalizeWordmap_length (ws : List String) (out : List WmItem) :
    (normalizeWordmap ws out).length = ws.length := by
  have h := congrArg List.length (normalizeWordmap_map_hi ws out)
  simpa using h

lemma mem_dropWhile_self (p : Char → Bool) (l : List Char) (c : Char)
    (hc : c ∈ l) (hp : p c = false) : c ∈ l.dropWhile p := by
  have hsplit := List.takeWhile_append_dropWhile p l
  rw [← hsplit] at hc
  rcases List.mem_append.mp hc with h | h
  · have hpc := List.mem_takeWhile_imp h
    rw [hp] at hpc
    exact absurd hpc (by simp)
  · exact h

lemma jsTrim_ne_empty (l : String) (c : Char) (hc : c ∈ l.data)
    (hw : c.isWhitespace = false) : jsTrim l ≠ "" := by
  intro h
  have h1 : c ∈ l.data.dropWhile Char.isWhitespace :=
    mem_dropWhile_self _ _ _ hc hw
  have h2 : c ∈ (l.data.dropWhile Char.isWhitespace).reverse :=
    List.mem_reverse.mpr h1
  have h3 : c ∈ (l.data.dropWhile Char.isWhitespace).reverse.dropWhile
      Char.isWhitespace :=
    mem_dropWhile_self _ _ _ h2 hw
  have h4 : c ∈ ((l.data.dropWhile Char.isWhitespace).reverse.dropWhile
      Char.isWhitespace).reverse :=
    List.mem_reverse.mpr h3
  have h5 := congrArg String.data h
  exact List.ne_nil_of_mem h4 h5

lemma keepLine_script_char (line : String) (h : keepLine line = true) :
    ∃ c ∈ line.data, (isHebrewChar c || isDevaChar c) = true := by
  simp only [keepLine, hasHebrew, hasDeva, Bool.or_eq_true,
    List.any_eq_true] at h
  rcases h with ⟨c, hc, hcv⟩ | ⟨c, hc, hcv⟩
  · exact ⟨c, hc, by simp [hcv]⟩
  · exact ⟨c, hc, by simp [hcv]⟩

lemma script_char_not_ws (c : Char) (h : (isHebrewChar c || isDevaChar c) = true) :
    c.isWhitespace = false := by
  have hor : isHebrewChar c = true ∨ isDevaChar c = true := by
    simpa using h
  have hge : 0x590 ≤ c.toNat := by
    rcases hor with h1 | h1
    · exact (of_decide_eq_true h1).1
    · have h2 := (of_decide_eq_true h1).1
      omega
  cases hb : c.isWhitespace with
  | false => rfl
  | true =>
    exfalso
    have hc : ((c = ' ' ∨ c = '\t') ∨ c = '\r') ∨ c = '\n' := by
      simpa [Char.isWhitespace] using hb
    rcases hc with ((rfl | rfl) | rfl) | rfl <;> exact absurd hge (by decide)

lemma filterMap_keepLines (l : List String) :
    ((l.map (fun line => if keepLine line then jsTrim line else "")).filter
      (fun x => !x.isEmpty)) = (l.filter keepLine).map jsTrim := by
  induction l with
  | nil => rfl
  | cons hd tl ih =>
    by_cases hk : keepLine hd = true
    · have hne : jsTrim hd ≠ "" := by
        obtain ⟨c, hc, hcv⟩ := keepLine_script_char hd hk
        exact jsTrim_ne_empty hd c hc (script_char_not_ws c hcv)
      have hne2 : (jsTrim hd).isEmpty = false := by
        cases h : (jsTrim hd).isEmpty with
        | false => rfl
        | true => exact absurd ((String.isEmpty_iff _).mp h) hne
      simp [hk, hne2, ih]
    · have hk2 : keepLine hd = false := by simpa using hk
      have hemp : (("" : String).isEmpty) = true := by decide
      simp [List.filter_cons, hk2, ih, hemp]

lemma splitWords_empty_str : splitWords "" = [] := by decide

lemma strField_truthy_of_words (sentence : String)
    (hw : splitWords sentence ≠ []) :
    (StrField.str sentence).isTruthy = true := by
  have hs : sentence ≠ "" := by
    intro h
    subst h
    exact hw splitWords_empty_str
  have he : sentence.isEmpty = false := by
    cases h : sentence.isEmpty with
    | false => rfl
    | true => exact absurd ((String.isEmpty_iff _).mp h) hs
  simp [StrField.isTruthy, he]

lemma wordmapHandler_ok (sentence : String) (jp : String → Option ParsedDoc)
    (comp : String) (hw : splitWords sentence ≠ []) :
    wordmapHandler (StrField.str sentence) jp (Except.ok comp) =
      (match parseWithFallback jp (jsTrim comp) with
       | none => (WmResponse.serverError "Wordmap error", true)
       | some parsed =>
         (WmResponse.okWords
           (normalizeWordmap (splitWords sentence) (parsed.words.getD [])),
          true)) := by
  have ht := strField_truthy_of_words sentence hw
  have hne : (splitWords sentence).isEmpty = false := by
    simp [List.isEmpty_iff, hw]
  simp [wordmapHandler, ht, StrField.value, hne]

lemma intercalate_go_append (s x y : String) (as : List String) :
    String.intercalate.go (x ++ y) s as = x ++ String.intercalate.go y s as := by
  induction as generalizing y with
  | nil => rfl
  | cons a as ih =>
    show String.intercalate.go (x ++ y ++ s ++ a) s as =
      x ++ String.intercalate.go (y ++ s ++ a) s as
    have hassoc : x ++ y ++ s ++ a = x ++ (y ++ s ++ a) := by
      simp only [String.append_assoc]
    rw [hassoc, ih]

lemma intercalate_cons_cons (s a b : String) (rest : List String) :
    String.intercalate s (a :: b :: rest) =
      a ++ s ++ String.intercalate s (b :: rest) := by
  show String.intercalate.go a s (b :: rest) =
    a ++ s ++ String.intercalate.go b s rest
  show String.intercalate.go (a ++ s ++ b) s rest = _
  exact intercalate_go_append s (a ++ s) b rest

/-- Claim C2 (amended): the effective news page size is
`Math.max(1, Math.min(20, Number(count || 3)))`: a missing or empty `count`
yields the default 3; a numeric `count` yields `clamp(count, 1, 20)`; a
non-empty non-numeric `count` propagates NaN through the clamp and is the
effective page size (it is not replaced by 3). -/
theorem news_count_clamp :
    newsEffectiveCount NumField.falsy = JsNum.num 3 ∧
    (∀ q : ℚ, newsEffectiveCount (NumField.truthyNum q) =
      JsNum.num (specClamp q 1 20)) ∧
    newsEffectiveCount NumField.truthyNaN = JsNum.nan := by
  refine ⟨by decide, fun q => rfl, by decide⟩

/-- Claim C2, counterexample: a non-empty non-numeric `count` (e.g. `"abc"`,
whose `Number` is NaN) does not yield the default page size 3 — `Math.min`
and `Math.max` propagate NaN, so the page size forwarded to the provider is
NaN. -/
theorem news_count_nan_not_three :
    newsEffectiveCount NumField.truthyNaN ≠ JsNum.num 3 := by
  decide

/-- Claim C3 (amended): for every truthy numeric rate (every nonzero finite
number), the effective rate is `clamp(rate, 60, 140)` and the prosody tier is
the spec's threshold table applied to the clamped value; a rate of 0 is falsy
and is replaced by the default 100 before clamping, giving "medium"; the
spec's listed boundary values all hold. -/
theorem rate_clamp_tiers :
    (∀ q : ℚ, q ≠ 0 →
      effRate (numField q) = JsNum.num (specClamp q 60 140) ∧
      ratePercentToSsmlRate (numField q) = specRateTier (specClamp q 60 140)) ∧
    ratePercentToSsmlRate (numField 0) = "medium" ∧
    ratePercentToSsmlRate (numField 100) = "medium" ∧
    ratePercentToSsmlRate (numField 80) = "x-slow" ∧
    ratePercentToSsmlRate (numField 81) = "slow" ∧
    ratePercentToSsmlRate (numField 95) = "slow" ∧
    ratePercentToSsmlRate (numField 96) = "medium" ∧
    ratePercentToSsmlRate (numField 110) = "medium" ∧
    ratePercentToSsmlRate (numField 111) = "fast" ∧
    ratePercentToSsmlRate (numField 125) = "fast" ∧
    ratePercentToSsmlRate (numField 126) = "x-fast" := by
  refine ⟨?_, by decide, by decide, by decide, by decide, by decide,
    by decide, by decide, by decide, by decide, by decide⟩
  intro q hq
  have hnf : numField q = NumField.truthyNum q := by simp [numField, hq]
  refine ⟨by simp [effRate, hnf, numFieldOr, jsMinConst, jsMaxConst, specClamp], ?_⟩
  simp only [ratePercentToSsmlRate, effRate, hnf, numFieldOr, jsMinConst,
    jsMaxConst, jsLe, specRateTier, specClamp, decide_eq_true_eq]

/-- Claim C3, witness: concrete application at rate 90. -/
theorem rate_clamp_tiers_witness :
    effRate (numField 90) = JsNum.num (specClamp 90 60 140) ∧
    ratePercentToSsmlRate (numField 90) = specRateTier (specClamp 90 60 140) :=
  rate_clamp_tiers.1 90 (by norm_num)

/-- Claim C3, counterexample: at the explicit input rate = 0 (a falsy number),
the code produces the tier "medium" (since `0 || 100` replaces 0 by the
default before clamping), whereas the claim's formula
`tier(clamp(0, 60, 140)) = tier(60)` gives "x-slow". -/
theorem rate_zero_diverges :
    ratePercentToSsmlRate (numField 0) = "medium" ∧
    specRateTier (specClamp 0 60 140) = "x-slow" ∧
    ratePercentToSsmlRate (numField 0) ≠ specRateTier (specClamp 0 60 140) := by
  refine ⟨by decide, by decide, by decide⟩

/-- Claim C6: a missing `text` on `/api/summarize` and `/api/speak`, and a
missing `sentence` on `/api/wordmap`, each return a 400 with a short message,
with no outbound provider call (second component `false`), whatever the
provider oracles would have answered. -/
theorem missing_input_400 :
    (∀ comp, summarizeHandler StrField.absent comp =
      (SumResponse.badRequest "Missing text", false)) ∧
    (∀ rate pauseMs synth, speakHandler StrField.absent rate pauseMs synth =
      (SpeakResponse.badRequest "Missing text", false)) ∧
    (∀ jp comp, wordmapHandler StrField.absent jp comp =
      (WmResponse.badRequest "Missing sentence", false)) :=
  ⟨fun _ => rfl, fun _ _ _ => rfl, fun _ _ => rfl⟩

/-- Claim C10: the missing-input guards test JS falsiness, not field
presence: any falsy `text`/`sentence` — empty string, 0, false, null — gets
exactly the same 400 response as an absent field, with no provider call. -/
theorem falsy_input_400 (t : StrField) (ht : t.isTruthy = false) :
    (∀ comp, summarizeHandler t comp = summarizeHandler StrField.absent comp) ∧
    (∀ comp, summarizeHandler t comp =
      (SumResponse.badRequest "Missing text", false)) ∧
    (∀ rate pauseMs synth, speakHandler t rate pauseMs synth =
      (SpeakResponse.badRequest "Missing text", false)) ∧
    (∀ jp comp, wordmapHandler t jp comp =
      (WmResponse.badRequest "Missing sentence", false)) := by
  have habs : StrField.absent.isTruthy = false := rfl
  refine ⟨fun comp => ?_, fun comp => ?_, fun rate pauseMs synth => ?_,
    fun jp comp => ?_⟩ <;>
    simp [summarizeHandler, speakHandler, wordmapHandler, ht, habs]

/-- Claim C10, witness: the empty string and the number 0 as request fields
are rejected exactly like absent fields. -/
theorem falsy_input_400_witness :
    summarizeHandler (StrField.str "") (Except.ok "x") =
      (SumResponse.badRequest "Missing text", false) ∧
    wordmapHandler StrField.zeroV (fun _ => none) (Except.ok "x") =
      (WmResponse.badRequest "Missing sentence", false) :=
  ⟨(falsy_input_400 (StrField.str "") (by decide)).2.1 _,
   (falsy_input_400 StrField.zeroV (by decide)).2.2.2 _ _⟩

/-- Claim C8: if any of the four required configuration values is absent the
startup check exits with a diagnostic listing exactly the missing names
(`required.filter((k) => !process.env[k])`); if all four are present (truthy)
startup proceeds. -/
theorem startup_env_check (env : String → Option String) :
    ((∃ k ∈ requiredVars, env k = none) →
      startupCheck env = Startup.exited (missingVars env) ∧
      missingVars env ≠ []) ∧
    ((∀ k ∈ requiredVars, envTruthy env k = true) →
      startupCheck env = Startup.started) ∧
    (∀ k, k ∈ missingVars env ↔
      k ∈ requiredVars ∧ envTruthy env k = false) := by
  have hmem : ∀ k, k ∈ missingVars env ↔
      k ∈ requiredVars ∧ envTruthy env k = false := by
    intro k
    simp [missingVars, List.mem_filter]
  refine ⟨?_, ?_, hmem⟩
  · rintro ⟨k, hk, hnone⟩
    have hkf : envTruthy env k = false := by simp [envTruthy, hnone]
    have hne : missingVars env ≠ [] := by
      intro h
      have hmm := (hmem k).mpr ⟨hk, hkf⟩
      rw [h] at hmm
      exact absurd hmm (List.not_mem_nil k)
    refine ⟨?_, hne⟩
    simp [startupCheck, List.isEmpty_iff, hne]
  · intro hall
    have hnil : missingVars env = [] := by
      apply List.eq_nil_iff_forall_not_mem.mpr
      intro k hkmem
      have hmm := (hmem k).mp hkmem
      have := hall k hmm.1
      rw [hmm.2] at this
      exact absurd this (by simp)
    simp [startupCheck, hnil]

/-- Claim C8, witness: an environment missing the news key exits listing
exactly that name; a complete environment starts. -/
theorem startup_env_check_witness :
    startupCheck envNoNews = Startup.exited ["NEWSAPI_KEY"] ∧
    startupCheck envComplete = Startup.started := by
  have h1 := (startup_env_check envNoNews).1 ⟨"NEWSAPI_KEY", by decide, by decide⟩
  have h2 := (startup_env_check envComplete).2.1 (fun k _ => rfl)
  refine ⟨?_, h2⟩
  rw [h1.1]
  decide

/-- Claim C4: for every numeric `pauseMs`, the effective pause is
`clamp(pauseMs, 0, 2000)`; when the clamped pause is 0 the joiner is a plain
single space, and when it is positive the joiner is a break marker of exactly
the clamped duration; the SSML body is the whitespace-split, XML-escaped
words with that joiner inserted between every pair of adjacent words. -/
theorem pause_clamp_join (q : ℚ) :
    speakSafePause (numField q) = JsNum.num (specClamp q 0 2000) ∧
    (specClamp q 0 2000 = 0 → ssmlJoiner (numField q) = " ") ∧
    (0 < specClamp q 0 2000 →
      ssmlJoiner (numField q) = breakTag (specClamp q 0 2000)) ∧
    (∀ text, ssmlBody text (numField q) =
      String.intercalate (ssmlJoiner (numField q))
        ((splitWords text).map escapeXml)) ∧
    (∀ text a b rest, splitWords text = a :: b :: rest →
      ssmlBody text (numField q) =
        escapeXml a ++ ssmlJoiner (numField q) ++
          String.intercalate (ssmlJoiner (numField q))
            ((b :: rest).map escapeXml)) := by
  have hsp : speakSafePause (numField q) = JsNum.num (specClamp q 0 2000) := by
    by_cases hq : q = 0
    · subst hq; rfl
    · simp [numField, hq, speakSafePause, numFieldOr, jsMinConst, jsMaxConst,
        specClamp]
  refine ⟨hsp, ?_, ?_, fun text => rfl, ?_⟩
  · intro h0
    simp [ssmlJoiner, hsp, h0]
  · intro hpos
    simp [ssmlJoiner, hsp, hpos]
  · intro text a b rest hsplit
    simp only [ssmlBody, hsplit, List.map_cons]
    exact intercalate_cons_cons _ _ _ _

/-- Claim C4, witness: concrete applications at pauseMs 500 (positive clamp:
break marker of 500 ms) and pauseMs 0 (plain space). -/
theorem pause_clamp_join_witness :
    ssmlJoiner (numField 500) = breakTag (specClamp 500 0 2000) ∧
    ssmlJoiner (numField 0) = " " :=
  ⟨(pause_clamp_join 500).2.2.1 (by norm_num [specClamp]),
   (pause_clamp_join 0).2.1 (by norm_num [specClamp])⟩

/-- Claim C5: the summarize post-filter keeps a line if and only if the line
contains a character in the Hebrew block U+0590–U+05FF or the Devanagari
block U+0900–U+097F (the kept lines appearing trimmed, joined by newlines); a
line of pure Latin text (all characters below U+0590) is dropped entirely;
and for any truthy `text` the handler wraps the filtered string — possibly
empty — in a success response. -/
theorem summarize_line_filter (s : String) :
    summarizeFilter s =
      String.intercalate "\n" (((splitLines s).filter keepLine).map jsTrim) ∧
    (∀ line : String, keepLine line = true ↔
      ∃ c ∈ line.data, isHebrewChar c = true ∨ isDevaChar c = true) ∧
    (∀ line : String, (∀ c ∈ line.data, c.toNat < 0x590) →
      keepLine line = false) ∧
    (∀ t : StrField, t.isTruthy = true →
      summarizeHandler t (Except.ok s) =
        (SumResponse.okResult (summarizeFilter s), true)) := by
  refine ⟨?_, ?_, ?_, ?_⟩
  · rw [summarizeFilter, filterMap_keepLines]
  · intro line
    simp only [keepLine, hasHebrew, hasDeva, Bool.or_eq_true, List.any_eq_true]
    constructor
    · rintro (⟨c, hc, hv⟩ | ⟨c, hc, hv⟩)
      · exact ⟨c, hc, Or.inl hv⟩
      · exact ⟨c, hc, Or.inr hv⟩
    · rintro ⟨c, hc, hv | hv⟩
      · exact Or.inl ⟨c, hc, hv⟩
      · exact Or.inr ⟨c, hc, hv⟩
  · intro line hlat
    cases hb : keepLine line with
    | false => rfl
    | true =>
      exfalso
      obtain ⟨c, hc, hcv⟩ := keepLine_script_char line hb
      have hlt := hlat c hc
      have hor : isHebrewChar c = true ∨ isDevaChar c = true := by simpa using hcv
      rcases hor with h1 | h1
      · have h2 := (of_decide_eq_true h1).1; omega
      · have h2 := (of_decide_eq_true h1).1; omega
  · intro t htr
    simp [summarizeHandler, htr]

/-- Claim C5, witness: a pure-Latin completion filters to the empty string
and is still a success response. -/
theorem summarize_line_filter_witness :
    summarizeHandler (StrField.str "x") (Except.ok "hello") =
      (SumResponse.okResult (summarizeFilter "hello"), true) ∧
    summarizeFilter "hello" = "" :=
  ⟨(summarize_line_filter "hello").2.2.2 (StrField.str "x") (by decide),
   by decide⟩

/-- Claim C9: any falsy `rate` (0, null, undefined, empty string, NaN) is
replaced by the default 100 before clamping — so rate 0 yields the tier
"medium", not the clamped-minimum tier "x-slow" — and any falsy `pauseMs`
becomes 0, so the words are joined with a plain space. -/
theorem falsy_rate_pause_defaults :
    numFieldOr NumField.falsy 100 = JsNum.num 100 ∧
    effRate NumField.falsy = JsNum.num 100 ∧
    ratePercentToSsmlRate NumField.falsy = "medium" ∧
    numField 0 = NumField.falsy ∧
    ratePercentToSsmlRate (numField 0) = "medium" ∧
    numFieldOr NumField.falsy 0 = JsNum.num 0 ∧
    speakSafePause NumField.falsy = JsNum.num 0 ∧
    ssmlJoiner NumField.falsy = " " ∧
    ∀ text, ssmlBody text NumField.falsy =
      String.intercalate " " ((splitWords text).map escapeXml) := by
  have hj : ssmlJoiner NumField.falsy = " " := by decide
  refine ⟨rfl, by decide, by decide, by decide, by decide, rfl, by decide,
    hj, fun text => ?_⟩
  rw [ssmlBody, hj]

/-- Claim C1: for every sentence splitting into a non-empty word list and
every completion whose trimmed content parses (directly or through the brace
fallback) to some document, the word-map handler returns a success whose
words array has exactly the input's length, whose `hi` fields are exactly the
input words in input order — whatever `words` array (absent, shorter, longer)
the parsed document carries. -/
theorem wordmap_shape (sentence raw : String)
    (jp : String → Option ParsedDoc) (doc : ParsedDoc)
    (hw : splitWords sentence ≠ [])
    (hp : parseWithFallback jp (jsTrim raw) = some doc) :
    ∃ out : List WordPair,
      wordmapHandler (StrField.str sentence) jp (Except.ok raw) =
        (WmResponse.okWords out, true) ∧
      out.length = (splitWords sentence).length ∧
      out.map WordPair.hi = splitWords sentence := by
  refine ⟨normalizeWordmap (splitWords sentence) (doc.words.getD []),
    ?_, ?_, ?_⟩
  · rw [wordmapHandler_ok sentence jp raw hw, hp]
  · exact normalizeWordmap_length _ _
  · exact normalizeWordmap_map_hi _ _

/-- Claim C1, witness: the spec's example — sentence "ek din", provider
returning one entry — yields both words in order, the second with an empty
gloss. -/
theorem wordmap_shape_witness :
    ∃ out : List WordPair,
      wordmapHandler (StrField.str "ek din") jpDirect (Except.ok "resp") =
        (WmResponse.okWords out, true) ∧
      out.length = (splitWords "ek din").length ∧
      out.map WordPair.hi = splitWords "ek din" :=
  wordmap_shape "ek din" "resp" jpDirect
    { words := some [{ he := some "אחד" }] } (by decide) (by decide)

/-- Claim C7: the raw completion is parsed as JSON directly; if the direct
parse fails and a first `\x7b` at `start` and last `\x7d` at `stop` exist
with `stop > start`, the slice `raw.slice(start, stop + 1)` is parsed; the
combined parse fails only if the direct parse failed and, when the brace pair
exists, the slice parse failed too; and a combined failure makes the handler
return the 500 provider-error response. -/
theorem wordmap_parse_fallback (jp : String → Option ParsedDoc) (raw : String) :
    (∀ v, jp raw = some v → parseWithFallback jp raw = some v) ∧
    (jp raw = none →
      ∀ start stop, strIndexOf raw lbraceChar = some start →
        strLastIndexOf raw rbraceChar = some stop → start < stop →
        parseWithFallback jp raw = jp (strSlice raw start (stop + 1))) ∧
    (parseWithFallback jp raw = none → jp raw = none) ∧
    (parseWithFallback jp raw = none →
      ∀ start stop, strIndexOf raw lbraceChar = some start →
        strLastIndexOf raw rbraceChar = some stop → start < stop →
        jp (strSlice raw start (stop + 1)) = none) ∧
    (∀ sentence comp, splitWords sentence ≠ [] →
      parseWithFallback jp (jsTrim comp) = none →
      wordmapHandler (StrField.str sentence) jp (Except.ok comp) =
        (WmResponse.serverError "Wordmap error", true)) := by
  refine ⟨?_, ?_, ?_, ?_, ?_⟩
  · intro v h
    simp [parseWithFallback, h]
  · intro h0 start stop h1 h2 hlt
    simp [parseWithFallback, h0, h1, h2, hlt]
  · intro h
    cases hjp : jp raw with
    | none => rfl
    | some v => simp [parseWithFallback, hjp] at h
  · intro h start stop h1 h2 hlt
    cases hjp : jp raw with
    | none =>
      rw [parseWithFallback, hjp] at h
      rw [h1, h2] at h
      simpa [hlt] using h
    | some v => simp [parseWithFallback, hjp] at h
  · intro sentence comp hw hpf
    rw [wordmapHandler_ok sentence jp comp hw, hpf]

/-- Claim C7, witness: a completion wrapped in extra text fails the direct
parse, and the brace-extracted slice parses. -/
theorem wordmap_parse_fallback_witness :
    parseWithFallback jpFallback "xx\x7b\x7dyy" = some { words := some [] } := by
  have h := (wordmap_parse_fallback jpFallback "xx\x7b\x7dyy").2.1 (by decide)
    2 3 (by decide) (by decide) (by decide)
  rw [h]
  decide
